import Mathlib

/-!
# Shallow embedding of `scripts/temperature_analyzer.py`

The program loads a CSV of timestamped temperature readings tagged by an
optional location, computes statistics, detects per-location outliers,
plots trends and writes a report.  We embed the data model and the
operations as executable Lean definitions:

* a CSV row is a `RawRow`; the temperature field is a `RawTemp`
  (a parseable number, a blank field, or a non-numeric string), mirroring
  what `pd.to_numeric(..., errors='coerce')` distinguishes;
* a loaded row is a `Reading` with `temperature : Option ℚ`
  (`none` models pandas `NaN`); the `location` is an `Option String`
  (`none` models a blank location field, which pandas loads as `NaN`
  and `groupby` then drops);
* `float` arithmetic is modelled exactly over `ℚ`; the anomaly comparison
  `abs(x - mean) > threshold * std`, whose right-hand side involves a
  square root, is embedded in the equivalent square-free form proved
  faithful in `anomalyTest_eq_real` below;
* the side effects of the plotting and report functions are modelled as a
  trace of `Effect`s inside `Except`, where `Except.error` models a raised
  exception (`os.makedirs` on the empty path raises `FileNotFoundError`).

`load_data` sorts with `self.df.sort_values('timestamp')`; we embed the
sort as `List.insertionSort` on the timestamp.  pandas' default
`kind='quicksort'` guarantees a sorted permutation of the rows but is not
documented to be stable, so no theorem below relies on the relative order
that equal timestamps get from the sort.
-/

namespace TemperatureAnalyzer

/-- The raw temperature field of a CSV row: a numeric string,
a blank field, or a non-numeric string.
`pd.to_numeric(..., errors='coerce')` keeps the first and turns the
other two into `NaN`. -/
inductive RawTemp where
  | num (q : ℚ)
  | blank
  | invalid
deriving DecidableEq, Repr

/-- One CSV row after the (whole-load, fatal) timestamp parse:
`timestamp` is the parsed datetime, totally ordered, modelled as `ℤ`. -/
structure RawRow where
  timestamp : ℤ
  location : Option String
  temperature_c : RawTemp
deriving DecidableEq, Repr

/-- One row of the loaded DataFrame: `temperature = none` models `NaN`. -/
structure Reading where
  timestamp : ℤ
  location : Option String
  temperature : Option ℚ
deriving DecidableEq, Repr

/-- The loaded DataFrame, in row order. -/
abbrev Dataset := List Reading

/-- `pd.to_numeric(value, errors='coerce')` on one temperature field. -/
def parseTemp : RawTemp → Option ℚ
  | .num q => some q
  | .blank => none
  | .invalid => none

/-- Row-wise effect of the two column conversions in `load_data`. -/
def parseRow (r : RawRow) : Reading :=
  ⟨r.timestamp, r.location, parseTemp r.temperature_c⟩

/-- Comparison key of `sort_values('timestamp')`. -/
def tsLe (a b : Reading) : Prop := a.timestamp ≤ b.timestamp

instance : DecidableRel tsLe := fun a b =>
  inferInstanceAs (Decidable (a.timestamp ≤ b.timestamp))

instance : IsTotal Reading tsLe := ⟨fun a b => Int.le_total a.timestamp b.timestamp⟩

instance : IsTrans Reading tsLe := ⟨fun _ _ _ h h' => le_trans h h'⟩

/-- `load_data`: parse the timestamp and temperature columns, then sort by
timestamp (`self.df = self.df.sort_values('timestamp')`). -/
def load_data (rows : List RawRow) : Dataset :=
  List.insertionSort tsLe (rows.map parseRow)

/-- `self.df['temperature_c'].isna().sum()` — the `missing_values` entry of
`get_temperature_stats`. -/
def missing_values (d : Dataset) : ℕ :=
  d.countP (fun r => r.temperature.isNone)

/-- Lexicographic comparison of character lists by code point — the order
Python `<` puts on strings, which `groupby(sort=True)` sorts keys by. -/
def charListLe : List Char → List Char → Bool
  | [], _ => true
  | _ :: _, [] => false
  | a :: as, b :: bs => if a < b then true else if b < a then false else charListLe as bs

/-- Python's `≤` on strings: lexicographic by code point. -/
def strLe (a b : String) : Prop := charListLe a.data b.data = true

instance : DecidableRel strLe := fun a b =>
  inferInstanceAs (Decidable (charListLe a.data b.data = true))

/-- The group keys of `self.df.groupby('location')`: the distinct non-null
locations, in ascending order (pandas `groupby` sorts keys). -/
def locKeys (d : Dataset) : List String :=
  List.insertionSort strLe (d.filterMap (·.location)).dedup

/-- The rows of one `groupby('location')` group, in DataFrame order. -/
def group (d : Dataset) (loc : String) : List Reading :=
  d.filter (fun r => r.location = some loc)

/-- The non-missing temperatures at a location, in DataFrame order —
the values pandas aggregations (`mean`, `std`, `count`, …) act on. -/
def nonMissing (d : Dataset) (loc : String) : List ℚ :=
  (group d loc).filterMap (·.temperature)

/-- pandas `mean` of a list of values (meaningful only when nonempty). -/
def locMean (l : List ℚ) : ℚ := l.sum / l.length

/-- pandas sample variance (`ddof=1`): `Σ (x - mean)² / (n - 1)`
(meaningful only when `2 ≤ n`; `std` is its square root and is `NaN`
when `n < 2`). -/
def locVar (l : List ℚ) : ℚ :=
  ((l.map fun x => (x - locMean l) ^ 2).sum) / ((l.length : ℚ) - 1)

/-- The row filter `abs(group['temperature_c'] - mean) > threshold * std`
of `detect_anomalies`, on one row.  A `NaN` temperature compares as
`False`.  `std = √var` is eliminated: for `0 ≤ t` the comparison
`|x - m| > t·√v` is squared, and for `t < 0` the right-hand side is
`≤ 0`, so the comparison holds unless `|x - m| = 0 = v`
(`anomalyTest_eq_real` proves this equivalent to the original). -/
def anomalyTest (temp : Option ℚ) (m v t : ℚ) : Bool :=
  match temp with
  | none => false
  | some x =>
    if 0 ≤ t then decide ((x - m) ^ 2 > t ^ 2 * v)
    else decide (x ≠ m ∨ 0 < v)

/-- `detect_anomalies(threshold)`.  Early return when every temperature is
`NaN`; otherwise, for each group of `self.df.groupby('location')` (keys in
ascending order), skip it when its `std` is `NaN` (fewer than 2 non-missing
values; the `location not in location_stats.index` guard never fires since
both groupbys run over the same frame), else keep the rows passing the
deviation filter; the kept per-location frames are concatenated
(`pd.concat`), or an empty frame is returned when every group was
skipped (`if not anomalies`). -/
def detect_anomalies (d : Dataset) (t : ℚ) : List Reading :=
  if d.all (fun r => r.temperature.isNone) then []
  else
    let anomalies := (locKeys d).filterMap (fun loc =>
      let temps := nonMissing d loc
      if temps.length < 2 then none
      else some ((group d loc).filter (fun r =>
        anomalyTest r.temperature (locMean temps) (locVar temps) t)))
    if anomalies = [] then [] else anomalies.flatten

/-- The messages `detect_anomalies` prints: one for the all-`NaN` early
return, one when every location was skipped (`if not anomalies`). -/
def detect_anomalies_msgs (d : Dataset) (t : ℚ) : List String :=
  if d.all (fun r => r.temperature.isNone) then
    ["No temperature data available for anomaly detection."]
  else
    let anomalies := (locKeys d).filterMap (fun loc =>
      let temps := nonMissing d loc
      if temps.length < 2 then none
      else some ((group d loc).filter (fun r =>
        anomalyTest r.temperature (locMean temps) (locVar temps) t)))
    if anomalies = [] then ["No anomalies detected."] else []

/-- One row of `get_temperature_by_location`:
`groupby('location')['temperature_c'].agg(['mean', 'min', 'max', 'count'])`.
`mean`/`min`/`max` are `NaN` (`none`) on an all-`NaN` group; `count`
counts the non-missing values. -/
structure LocAgg where
  mean : Option ℚ
  min : Option ℚ
  max : Option ℚ
  count : ℕ
deriving DecidableEq, Repr

/-- The aggregations of one group, over its non-missing values. -/
def aggOf (l : List ℚ) : LocAgg :=
  { mean := if l.length = 0 then none else some (locMean l)
    min := l.min?
    max := l.max?
    count := l.length }

/-- `get_temperature_by_location`: one aggregation row per group key,
keys in ascending order. -/
def get_temperature_by_location (d : Dataset) : List (String × LocAgg) :=
  (locKeys d).map (fun loc => (loc, aggOf (nonMissing d loc)))

/-- One observable side effect of the plotting / report functions. -/
inductive Effect where
  | mkdir (dir : String)
  | plotLine (location : String)
  | savefig (path : String)
  | write (path : String)
  | log (msg : String)
deriving DecidableEq, Repr

/-- `os.path.dirname`: everything before the final `'/'` with trailing
slashes stripped unless the head is all slashes; the empty string when the
path has no `'/'`. -/
def dirname (p : String) : String :=
  let cs := p.toList
  let head := (cs.reverse.dropWhile (· ≠ '/')).reverse
  if head.all (· = '/') then ⟨head⟩
  else ⟨(head.reverse.dropWhile (· = '/')).reverse⟩

/-- `os.makedirs(dir, exist_ok=True)`: raises `FileNotFoundError` on the
empty path (`exist_ok` only suppresses `FileExistsError`); otherwise
creates the directory.  Environmental failures (permissions, a file in the
way) are outside the model. -/
def makedirs (dir : String) : Except String Unit :=
  if dir = "" then
    .error "FileNotFoundError: [Errno 2] No such file or directory"
  else .ok ()

/-- `plot_temperature_trends(output_path)` as its trace of effects:
create the output directory first, then drop the `NaN`-temperature rows;
if no row remains, print and return; otherwise draw one line per
(present, ascending) location of the remaining rows, save the figure and
print.  The figure's pure styling (title, labels, rotation, …) is not
observable in the trace. -/
def plot_temperature_trends (d : Dataset) (output_path : String) :
    Except String (List Effect) :=
  match makedirs (dirname output_path) with
  | .error e => .error e
  | .ok _ =>
    let temp_data := d.filter (fun r => !r.temperature.isNone)
    if temp_data.length = 0 then
      .ok [.mkdir (dirname output_path),
           .log "No valid temperature data available for plotting."]
    else
      .ok ([.mkdir (dirname output_path)]
        ++ (locKeys temp_data).map .plotLine
        ++ [.savefig output_path,
            .log ("Temperature trend plot saved to " ++ output_path)])

/-- `save_report(output_path)` as its trace of effects: create the output
directory first, then assemble the report text (pure string formatting
over `get_temperature_stats`, `get_temperature_by_location` and
`detect_anomalies()` at the default threshold 2.0, whose prints appear in
the trace) and write it. -/
def save_report (d : Dataset) (output_path : String) :
    Except String (List Effect) :=
  match makedirs (dirname output_path) with
  | .error e => .error e
  | .ok _ =>
    .ok ([.mkdir (dirname output_path)]
      ++ (detect_anomalies_msgs d 2).map .log
      ++ [.write output_path, .log ("Report saved to " ++ output_path)])

/-- The effect trace of a run that did not raise, `[]` for a raised run
(used only to state counterexamples about traces). -/
def effectsOf : Except String (List Effect) → List Effect
  | .ok l => l
  | .error _ => []

/-- The per-location anomaly rows as the spec describes them: skip the
location when its standard deviation is undefined (fewer than 2
non-missing readings), else keep this location's rows (in dataset order)
that pass the deviation filter. -/
def specLocationAnomalies (d : Dataset) (t : ℚ) (loc : String) : List Reading :=
  let temps := nonMissing d loc
  if 2 ≤ temps.length then
    (group d loc).filter (fun r =>
      anomalyTest r.temperature (locMean temps) (locVar temps) t)
  else []

/-- Modelled from the claim's words (claim C4): the concatenation of each
location's anomalies with locations taken in encounter order — order of a
location's first appearance in the dataset. -/
def detect_anomalies_encounter (d : Dataset) (t : ℚ) : List Reading :=
  ((d.filterMap (·.location)).dedup).flatMap (specLocationAnomalies d t)

/-- Modelled from the amended claim's words: the concatenation of each
location's anomalies with the distinct locations taken in ascending
order. -/
def detect_anomalies_sorted (d : Dataset) (t : ℚ) : List Reading :=
  (locKeys d).flatMap (specLocationAnomalies d t)

/-- The spec's running example: three RoomA readings 20, 21, 90. -/
def exA : Dataset :=
  [⟨0, some "RoomA", some 20⟩, ⟨1, some "RoomA", some 21⟩, ⟨2, some "RoomA", some 90⟩]

/-- A dataset whose location "B" is encountered before "A", both with an
outlier. -/
def exC4 : Dataset :=
  [⟨0, some "B", some 0⟩, ⟨1, some "B", some 0⟩, ⟨2, some "B", some 100⟩,
   ⟨3, some "A", some 0⟩, ⟨4, some "A", some 0⟩, ⟨5, some "A", some 100⟩]

/-- A dataset whose location "A" has constant temperature (variance zero)
and whose location "B" has an outlier. -/
def exW : Dataset :=
  [⟨0, some "A", some 5⟩, ⟨1, some "A", some 5⟩, ⟨2, some "A", some 5⟩,
   ⟨3, some "B", some 0⟩, ⟨4, some "B", some 0⟩, ⟨5, some "B", some 100⟩]

/-- A dataset with one missing temperature and all locations present. -/
def exM : Dataset :=
  [⟨0, some "A", some 5⟩, ⟨1, some "A", none⟩, ⟨2, some "B", some 7⟩]

/-- Raw CSV rows exercising a numeric, a blank and a non-numeric
temperature field. -/
def exRows : List RawRow :=
  [⟨5, some "A", .num 21⟩, ⟨3, some "A", .blank⟩, ⟨4, some "B", .invalid⟩]

attribute [local semireducible] Rat.add Rat.mul Rat.inv Rat.sub Rat.ofScientific

/-! ## Order facts for the key comparison -/

theorem charListLe_cons {a b : Char} {as bs : List Char} :
    charListLe (a :: as) (b :: bs) = true ↔
      a < b ∨ (¬ a < b ∧ ¬ b < a ∧ charListLe as bs = true) := by
  simp only [charListLe]
  split_ifs with h1 h2
  · simp [h1]
  · simp [h1, h2]
  · simp [h1, h2]

theorem charListLe_total : ∀ a b, charListLe a b = true ∨ charListLe b a = true
  | [], _ => Or.inl rfl
  | _ :: _, [] => Or.inr rfl
  | a :: as, b :: bs => by
    rw [charListLe_cons, charListLe_cons]
    rcases lt_trichotomy a b with h | h | h
    · exact Or.inl (Or.inl h)
    · subst h
      rcases charListLe_total as bs with ih | ih
      · exact Or.inl (Or.inr ⟨lt_irrefl a, lt_irrefl a, ih⟩)
      · exact Or.inr (Or.inr ⟨lt_irrefl a, lt_irrefl a, ih⟩)
    · exact Or.inr (Or.inl h)

theorem charListLe_trans :
    ∀ a b c, charListLe a b = true → charListLe b c = true → charListLe a c = true
  | [], _, _ => fun _ _ => rfl
  | _ :: _, [], _ => fun h1 _ => by simp [charListLe] at h1
  | _ :: _, _ :: _, [] => fun _ h2 => by simp [charListLe] at h2
  | a :: as, b :: bs, c :: cs => fun h1 h2 => by
    rw [charListLe_cons] at h1 h2 ⊢
    rcases h1 with h1 | ⟨hab, hba, h1⟩
    · rcases h2 with h2 | ⟨hbc, hcb, _⟩
      · exact Or.inl (lt_trans h1 h2)
      · exact Or.inl ((le_antisymm (not_lt.1 hcb) (not_lt.1 hbc)) ▸ h1)
    · have hab' : a = b := le_antisymm (not_lt.1 hba) (not_lt.1 hab)
      subst hab'
      rcases h2 with h2 | ⟨hbc, hcb, h2⟩
      · exact Or.inl h2
      · exact Or.inr ⟨hbc, hcb, charListLe_trans _ _ _ h1 h2⟩

instance : IsTotal String strLe := ⟨fun a b => charListLe_total a.data b.data⟩

instance : IsTrans String strLe :=
  ⟨fun a b c h1 h2 => charListLe_trans a.data b.data c.data h1 h2⟩

/-! ## Structural lemmas about the anomaly detector -/

theorem mem_group {d : Dataset} {loc : String} {r : Reading} :
    r ∈ group d loc ↔ r ∈ d ∧ r.location = some loc := by
  simp [group, List.mem_filter]

theorem temp_mem_nonMissing {d : Dataset} {loc : String} {r : Reading} {x : ℚ}
    (hr : r ∈ group d loc) (hx : r.temperature = some x) : x ∈ nonMissing d loc := by
  simp only [nonMissing, List.mem_filterMap]
  exact ⟨r, hr, hx⟩

theorem flatten_of_ite {anomalies : List (List Reading)} :
    (if anomalies = [] then ([] : List Reading) else anomalies.flatten)
      = anomalies.flatten := by
  split_ifs with h
  · simp [h]
  · rfl

/-- Membership in the result of `detect_anomalies`, unfolded: the dataset has
some non-missing temperature, and the reading lies in some group whose
standard deviation is defined (at least 2 non-missing values) and passes the
deviation test of that group. -/
theorem mem_detect_anomalies {d : Dataset} {t : ℚ} {r : Reading} :
    r ∈ detect_anomalies d t ↔
      d.all (fun s => s.temperature.isNone) = false ∧
      ∃ loc ∈ locKeys d, 2 ≤ (nonMissing d loc).length ∧ r ∈ group d loc ∧
        anomalyTest r.temperature (locMean (nonMissing d loc))
          (locVar (nonMissing d loc)) t = true := by
  unfold detect_anomalies
  cases hall : d.all (fun s => s.temperature.isNone) with
  | true => simp
  | false =>
    simp only [Bool.false_eq_true, if_false, flatten_of_ite, List.mem_flatten,
      List.mem_filterMap, true_and]
    constructor
    · rintro ⟨l, ⟨loc, hloc, hf⟩, hrl⟩
      by_cases hlen : (nonMissing d loc).length < 2
      · simp [hlen] at hf
      · simp only [hlen, if_false] at hf
        obtain rfl := Option.some.inj hf
        exact ⟨loc, hloc, Nat.le_of_not_lt hlen,
          (List.mem_filter.1 hrl).1, (List.mem_filter.1 hrl).2⟩
    · rintro ⟨loc, hloc, hlen, hrg, htest⟩
      refine ⟨(group d loc).filter (fun s =>
        anomalyTest s.temperature (locMean (nonMissing d loc))
          (locVar (nonMissing d loc)) t), ⟨loc, hloc, ?_⟩, ?_⟩
      · simp [Nat.not_lt.2 hlen]
      · exact List.mem_filter.2 ⟨hrg, htest⟩

theorem anomalyTest_none {m v t : ℚ} : anomalyTest none m v t = false := rfl

/-- Faithfulness of the square-free embedding of the deviation filter: over
the reals, `anomalyTest` holds exactly when `|x - mean| > threshold * √var`,
the comparison the source computes with `std = √var`. -/
theorem anomalyTest_eq_real {x m v t : ℚ} (hv : 0 ≤ v) :
    anomalyTest (some x) m v t = true ↔
      |(x : ℝ) - (m : ℝ)| > (t : ℝ) * Real.sqrt (v : ℝ) := by
  have hv' : (0 : ℝ) ≤ (v : ℝ) := by exact_mod_cast hv
  have hs : (0 : ℝ) ≤ Real.sqrt (v : ℝ) := Real.sqrt_nonneg _
  have hsq : Real.sqrt (v : ℝ) ^ 2 = (v : ℝ) := Real.sq_sqrt hv'
  simp only [anomalyTest]
  split_ifs with ht
  · have ht' : (0 : ℝ) ≤ (t : ℝ) := by exact_mod_cast ht
    rw [decide_eq_true_eq]
    constructor
    · intro hq
      have hr : ((x : ℝ) - m) ^ 2 > (t : ℝ) ^ 2 * v := by exact_mod_cast hq
      by_contra hle
      push_neg at hle
      have h2 : ((x : ℝ) - m) ^ 2 ≤ ((t : ℝ) * Real.sqrt v) ^ 2 := by
        calc ((x : ℝ) - m) ^ 2 = |(x : ℝ) - m| ^ 2 := (sq_abs _).symm
          _ ≤ ((t : ℝ) * Real.sqrt v) ^ 2 := pow_le_pow_left₀ (abs_nonneg _) hle 2
      rw [mul_pow, hsq] at h2
      linarith
    · intro hgt
      have h2 : ((t : ℝ) * Real.sqrt v) ^ 2 < |(x : ℝ) - m| ^ 2 := by
        nlinarith [abs_nonneg ((x : ℝ) - m), mul_nonneg ht' hs]
      rw [mul_pow, hsq, sq_abs] at h2
      exact_mod_cast h2
  · push_neg at ht
    have ht' : (t : ℝ) < 0 := by exact_mod_cast ht
    rw [decide_eq_true_eq]
    constructor
    · rintro (hxm | hv0)
      · have hxm' : (x : ℝ) - m ≠ 0 := by
          intro h0
          apply hxm
          have hxe : (x : ℝ) = (m : ℝ) := by linarith
          exact_mod_cast hxe
        have habs : 0 < |(x : ℝ) - m| := abs_pos.2 hxm'
        nlinarith [mul_nonneg (neg_nonneg.2 ht'.le) hs]
      · have hv0' : (0 : ℝ) < (v : ℝ) := by exact_mod_cast hv0
        have hs0 : 0 < Real.sqrt (v : ℝ) := Real.sqrt_pos.2 hv0'
        nlinarith [abs_nonneg ((x : ℝ) - m), mul_neg_of_neg_of_pos ht' hs0]
    · intro hgt
      by_contra hcon
      push_neg at hcon
      obtain ⟨hxm, hv0⟩ := hcon
      have hveq : v = 0 := le_antisymm hv0 hv
      have hx0 : (x : ℝ) - m = 0 := by
        have hxe : (x : ℝ) = (m : ℝ) := by exact_mod_cast hxm
        linarith
      rw [hveq] at hgt
      simp [hx0] at hgt

/-- The sample variance is nonnegative. -/
theorem locVar_nonneg {l : List ℚ} (h2 : 2 ≤ l.length) : 0 ≤ locVar l := by
  unfold locVar
  apply div_nonneg
  · apply List.sum_nonneg
    intro x hx
    rcases List.mem_map.1 hx with ⟨y, _, rfl⟩
    positivity
  · have : (2 : ℚ) ≤ (l.length : ℚ) := by exact_mod_cast h2
    linarith

/-- A sum of squares over a list vanishes only when every entry equals the
offset. -/
theorem eq_of_sum_sq_eq_zero {m : ℚ} :
    ∀ {l : List ℚ}, (l.map fun x => (x - m) ^ 2).sum = 0 → ∀ x ∈ l, x = m := by
  intro l
  induction l with
  | nil => intro _ x hx; cases hx
  | cons a l ih =>
    intro hsum x hx
    rw [List.map_cons, List.sum_cons] at hsum
    have ha : (0:ℚ) ≤ (a - m) ^ 2 := by positivity
    have hl : (0:ℚ) ≤ (l.map fun x => (x - m) ^ 2).sum := by
      apply List.sum_nonneg
      intro y hy
      rcases List.mem_map.1 hy with ⟨z, _, rfl⟩
      positivity
    have h1 : (a - m) ^ 2 = 0 := by linarith
    have h2 : (l.map fun x => (x - m) ^ 2).sum = 0 := by linarith
    rcases List.mem_cons.1 hx with rfl | hx
    · have h0 : x - m = 0 := by
        have h2 : (2 : ℕ) ≠ 0 := by norm_num
        exact (pow_eq_zero_iff h2).1 h1
      linarith [sub_eq_zero.1 h0]
    · exact ih h2 x hx

/-- If the sample variance of a group with at least two values is zero, every
value in the group equals the group mean. -/
theorem eq_mean_of_locVar_eq_zero {l : List ℚ} (h2 : 2 ≤ l.length)
    (hv : locVar l = 0) : ∀ x ∈ l, x = locMean l := by
  unfold locVar at hv
  have hden : ((l.length : ℚ) - 1) ≠ 0 := by
    have : (2 : ℚ) ≤ (l.length : ℚ) := by exact_mod_cast h2
    intro h
    linarith
  rcases div_eq_zero_iff.1 hv with h | h
  · exact eq_of_sum_sq_eq_zero h
  · exact absurd h hden

/-- With zero variance, a reading passes the deviation test only when its
temperature differs from the mean. -/
theorem ne_mean_of_anomalyTest_var_zero {x m t : ℚ}
    (h : anomalyTest (some x) m 0 t = true) : x ≠ m := by
  unfold anomalyTest at h
  split_ifs at h with ht
  · intro hxm
    rw [decide_eq_true_eq] at h
    rw [hxm] at h
    simp at h
  · rw [decide_eq_true_eq] at h
    rcases h with h | h
    · exact h
    · exact absurd h (lt_irrefl 0)

/-- The deviation test is antitone in the threshold (over a nonnegative
variance): lowering the threshold keeps every flagged reading flagged. -/
theorem anomalyTest_mono {o : Option ℚ} {m v t₁ t₂ : ℚ} (hv : 0 ≤ v)
    (ht : t₁ ≤ t₂) (h : anomalyTest o m v t₂ = true) :
    anomalyTest o m v t₁ = true := by
  cases o with
  | none => exact absurd h (by simp [anomalyTest])
  | some x =>
    simp only [anomalyTest] at h ⊢
    by_cases h1 : 0 ≤ t₁
    · have h2 : 0 ≤ t₂ := le_trans h1 ht
      rw [if_pos h2, decide_eq_true_eq] at h
      rw [if_pos h1, decide_eq_true_eq]
      have hsq : t₁ ^ 2 ≤ t₂ ^ 2 := pow_le_pow_left₀ h1 ht 2
      nlinarith
    · rw [if_neg h1, decide_eq_true_eq]
      by_cases h2 : 0 ≤ t₂
      · rw [if_pos h2, decide_eq_true_eq] at h
        by_cases hxm : x = m
        · subst hxm
          right
          rcases lt_or_eq_of_le hv with h' | h'
          · exact h'
          · exfalso; rw [← h'] at h; simp at h
        · exact Or.inl hxm
      · rw [if_neg h2, decide_eq_true_eq] at h
        exact h

/-! ## Claims C1–C3 -/

/-- C1: for every dataset and every threshold, `detect_anomalies` returns no
reading from any location that has fewer than 2 non-missing temperature
readings or whose non-missing temperatures have sample standard deviation
equal to 0 (equivalently, sample variance 0): such locations contribute no
anomalies. -/
theorem claim_C1 (d : Dataset) (t : ℚ) (loc : String)
    (h : (nonMissing d loc).length < 2 ∨ locVar (nonMissing d loc) = 0) :
    ∀ r ∈ detect_anomalies d t, r.location ≠ some loc := by
  intro r hr hrl
  obtain ⟨-, loc', hloc', hlen, hrg, htest⟩ := mem_detect_anomalies.1 hr
  have hll : loc' = loc := by
    have h2 := (mem_group.1 hrg).2
    rw [hrl] at h2
    exact (Option.some.inj h2).symm
  subst hll
  rcases h with h | h
  · omega
  · cases hx : r.temperature with
    | none => rw [hx, anomalyTest_none] at htest; cases htest
    | some x =>
      rw [hx, h] at htest
      exact ne_mean_of_anomalyTest_var_zero htest
        (eq_mean_of_locVar_eq_zero hlen h x (temp_mem_nonMissing hrg hx))

/-- Witness for C1: in `exW`, location "A" has variance 0, and the reading
`detect_anomalies` flags is not from "A". -/
theorem claim_C1_witness :
    locVar (nonMissing exW "A") = 0 ∧
      (⟨5, some "B", some 100⟩ : Reading).location ≠ some "A" :=
  ⟨by decide, claim_C1 exW 1 "A" (Or.inr (by decide)) _ (by decide)⟩

/-- C2: every reading returned by `detect_anomalies` has a non-missing
temperature. -/
theorem claim_C2 (d : Dataset) (t : ℚ) (r : Reading)
    (hr : r ∈ detect_anomalies d t) : r.temperature ≠ none := by
  obtain ⟨-, loc, -, -, -, htest⟩ := mem_detect_anomalies.1 hr
  intro hnone
  rw [hnone, anomalyTest_none] at htest
  cases htest

/-- Witness for C2: on the spec's example at threshold 1, the 90-degree
reading is flagged and indeed has a non-missing temperature. -/
theorem claim_C2_witness :
    (⟨2, some "RoomA", some 90⟩ : Reading) ∈ detect_anomalies exA 1 ∧
      (⟨2, some "RoomA", some 90⟩ : Reading).temperature ≠ none :=
  ⟨by decide, claim_C2 exA 1 _ (by decide)⟩

/-- C3: threshold monotonicity — for `t₁ ≤ t₂`, every reading returned at
threshold `t₂` is also returned at threshold `t₁`. -/
theorem claim_C3 (d : Dataset) (t₁ t₂ : ℚ) (ht : t₁ ≤ t₂) :
    ∀ r ∈ detect_anomalies d t₂, r ∈ detect_anomalies d t₁ := by
  intro r hr
  obtain ⟨hall, loc, hloc, hlen, hrg, htest⟩ := mem_detect_anomalies.1 hr
  exact mem_detect_anomalies.2 ⟨hall, loc, hloc, hlen, hrg,
    anomalyTest_mono (locVar_nonneg hlen) ht htest⟩

/-- Witness for C3: the reading flagged at threshold 1 on the spec's example
is still flagged at the lower threshold 0. -/
theorem claim_C3_witness :
    (0 : ℚ) ≤ 1 ∧ (⟨2, some "RoomA", some 90⟩ : Reading) ∈ detect_anomalies exA 0 :=
  ⟨by decide, claim_C3 exA 0 1 (by decide) _ (by decide)⟩

/-! ## Claim C4 -/

theorem flatMap_eq_nil {α β : Type} (l : List α) (f : α → List β)
    (h : ∀ a ∈ l, f a = []) : l.flatMap f = [] := by
  induction l with
  | nil => rfl
  | cons a l ih =>
    rw [List.flatMap_cons, h a (List.mem_cons_self a l), List.nil_append]
    exact ih (fun b hb => h b (List.mem_cons_of_mem a hb))

theorem flatMap_congr {α β : Type} (l : List α) (f g : α → List β)
    (h : ∀ a ∈ l, f a = g a) : l.flatMap f = l.flatMap g := by
  induction l with
  | nil => rfl
  | cons a l ih =>
    rw [List.flatMap_cons, List.flatMap_cons, h a (List.mem_cons_self a l),
      ih (fun b hb => h b (List.mem_cons_of_mem a hb))]

theorem flatten_filterMap {α β : Type} (l : List α) (f : α → Option (List β)) :
    (l.filterMap f).flatten = l.flatMap (fun a => (f a).getD []) := by
  induction l with
  | nil => rfl
  | cons a l ih =>
    cases hfa : f a with
    | none => simp [List.filterMap_cons, hfa, ih]
    | some b => simp [List.filterMap_cons, hfa, ih]

theorem nonMissing_eq_nil_of_all_missing {d : Dataset}
    (hall : d.all (fun r => r.temperature.isNone) = true) (loc : String) :
    nonMissing d loc = [] := by
  rw [nonMissing, List.filterMap_eq_nil_iff]
  intro r hr
  have := List.all_eq_true.1 hall r (mem_group.1 hr).1
  exact Option.isNone_iff_eq_none.1 this

/-- `detect_anomalies` computes exactly the concatenation, over the distinct
locations in ascending order, of each unskipped location's deviation-filtered
rows: the early all-missing return and the empty-list check agree with the
direct concatenation. -/
theorem detect_anomalies_eq_sorted (d : Dataset) (t : ℚ) :
    detect_anomalies d t = detect_anomalies_sorted d t := by
  unfold detect_anomalies detect_anomalies_sorted
  split
  case isTrue hall =>
    symm
    apply flatMap_eq_nil
    intro loc _
    rw [specLocationAnomalies, nonMissing_eq_nil_of_all_missing hall loc]
    simp
  case isFalse hall =>
    rw [flatten_of_ite, flatten_filterMap]
    apply flatMap_congr
    intro loc _
    by_cases hlen : (nonMissing d loc).length < 2
    · simp [hlen, specLocationAnomalies, Nat.not_le.2 hlen]
    · simp [hlen, specLocationAnomalies, Nat.le_of_not_lt hlen]

/-- Counterexample to C4 as stated: in `exC4` location "B" is encountered
first, but `detect_anomalies` (whose `groupby` sorts its keys) lists the
anomaly of "A" first, not in location encounter order. -/
theorem claim_C4_counterexample :
    detect_anomalies exC4 1 =
        [⟨5, some "A", some 100⟩, ⟨2, some "B", some 100⟩] ∧
      detect_anomalies_encounter exC4 1 =
        [⟨2, some "B", some 100⟩, ⟨5, some "A", some 100⟩] ∧
      detect_anomalies exC4 1 ≠ detect_anomalies_encounter exC4 1 :=
  ⟨by decide, by decide, by decide⟩

/-- C4 as amended: the result of `detect_anomalies` is the concatenation of
each location's anomalies with the distinct locations taken in ascending
order (not encounter order), and within each location the readings in
original dataset order; the key list is indeed ascending and duplicate
free. -/
theorem claim_C4 (d : Dataset) (t : ℚ) :
    detect_anomalies d t = detect_anomalies_sorted d t ∧
      (locKeys d).Pairwise strLe ∧ (locKeys d).Nodup := by
  refine ⟨detect_anomalies_eq_sorted d t, ?_, ?_⟩
  · exact List.sorted_insertionSort strLe _
  · exact ((List.perm_insertionSort strLe _).nodup_iff).2 (List.nodup_dedup _)

/-! ## Loader facts

`sort_values('timestamp')` runs with pandas' default `kind='quicksort'`,
which guarantees a sorted permutation of the rows but not a stable one;
the relative order of equal timestamps is implementation-defined there, so
nothing below depends on the tie order the embedding's sort happens to
pick. -/

/-- The loader preserves the row count: the sort is a permutation of the
parsed rows. -/
theorem load_data_length (rows : List RawRow) :
    (load_data rows).length = rows.length := by
  rw [load_data, (List.perm_insertionSort tsLe (rows.map parseRow)).length_eq,
    List.length_map]

/-- The loaded dataset is sorted non-decreasing by timestamp. -/
theorem load_data_sorted (rows : List RawRow) :
    (load_data rows).Pairwise tsLe :=
  List.sorted_insertionSort tsLe _

/-! ## Claim C6 -/

/-- C6: a row whose temperature field is blank or non-numeric is mapped to a
missing value at load time (never an error — `load_data` is total), and
`missing_values` counts exactly those rows. -/
theorem claim_C6 :
    (∀ raw : RawRow,
        (raw.temperature_c = .blank ∨ raw.temperature_c = .invalid) →
        (parseRow raw).temperature = none) ∧
      ∀ rows : List RawRow,
        missing_values (load_data rows) =
          rows.countP (fun raw =>
            decide (raw.temperature_c = .blank ∨ raw.temperature_c = .invalid)) := by
  constructor
  · intro raw h
    rcases h with h | h <;> simp [parseRow, parseTemp, h]
  · intro rows
    rw [missing_values, load_data,
      (List.perm_insertionSort tsLe (rows.map parseRow)).countP_eq,
      List.countP_map]
    apply List.countP_congr
    intro raw _
    cases hrt : raw.temperature_c <;>
      simp [Function.comp, parseRow, parseTemp, hrt]

/-- Witness for C6: a blank field parses to `none`, and loading `exRows`
(one numeric, one blank, one non-numeric temperature) reports 2 missing
values. -/
theorem claim_C6_witness :
    (parseRow ⟨3, some "A", .blank⟩).temperature = none ∧
      missing_values (load_data exRows) = 2 := by
  refine ⟨claim_C6.1 _ (Or.inl rfl), ?_⟩
  rw [claim_C6.2 exRows]
  decide

/-! ## Claim C7 -/

theorem length_nonMissing (loc : String) :
    ∀ d : Dataset,
      (nonMissing d loc).length =
        d.countP (fun r => decide (r.location = some loc) && r.temperature.isSome)
  | [] => rfl
  | r :: d => by
    have ih := length_nonMissing loc d
    unfold nonMissing group at ih ⊢
    rw [List.filter_cons, List.countP_cons]
    by_cases hl : r.location = some loc
    · cases ht : r.temperature with
      | none => simp [hl, ht, ih]
      | some x => simp [hl, ht, ih]
    · simp [hl, ih]

theorem sum_map_add {α : Type} (K : List α) (f g : α → ℕ) :
    (K.map (fun k => f k + g k)).sum = (K.map f).sum + (K.map g).sum := by
  induction K with
  | nil => rfl
  | cons a K ih =>
    simp only [List.map_cons, List.sum_cons, ih]
    omega

theorem sum_indicator_nodup :
    ∀ (K : List String) (l : String), K.Nodup → l ∈ K →
      (K.map (fun k => if k = l then (1 : ℕ) else 0)).sum = 1
  | [], _, _, hm => absurd hm (List.not_mem_nil _)
  | a :: K, l, hK, hm => by
    rcases List.mem_cons.1 hm with rfl | hm
    · simp only [List.map_cons, List.sum_cons, if_pos rfl]
      have hz : ∀ x ∈ K.map (fun k => if k = l then (1 : ℕ) else 0), x = 0 := by
        intro x hx
        rcases List.mem_map.1 hx with ⟨k, hk, rfl⟩
        have hka : k ≠ l := fun h => (List.nodup_cons.1 hK).1 (h ▸ hk)
        simp [hka]
      rw [List.sum_eq_zero hz]
      simp
    · have ha : a ≠ l := fun h => (List.nodup_cons.1 hK).1 (h ▸ hm)
      simp only [List.map_cons, List.sum_cons, if_neg ha]
      rw [sum_indicator_nodup K l (List.nodup_cons.1 hK).2 hm]

/-- Partition of the non-missing row count over any duplicate-free key list
covering every located row. -/
theorem sum_counts {K : List String} (hK : K.Nodup) :
    ∀ d : Dataset,
      (∀ r ∈ d, r.temperature.isSome = true →
        ∃ loc, r.location = some loc ∧ loc ∈ K) →
      (K.map (fun loc =>
          d.countP (fun r => decide (r.location = some loc) && r.temperature.isSome))).sum
        = d.countP (fun r => r.temperature.isSome)
  | [] => by
    intro _
    rw [List.countP_nil, List.sum_eq_zero]
    intro x hx
    rcases List.mem_map.1 hx with ⟨k, _, rfl⟩
    rfl
  | r :: d => by
    intro h
    have hd := sum_counts hK d (fun s hs => h s (List.mem_cons_of_mem r hs))
    have hcons :
        K.map (fun loc =>
            (r :: d).countP (fun s =>
              decide (s.location = some loc) && s.temperature.isSome))
          = K.map (fun loc =>
              d.countP (fun s =>
                decide (s.location = some loc) && s.temperature.isSome)
              + if decide (r.location = some loc) && r.temperature.isSome
                  then 1 else 0) := by
      apply List.map_congr_left
      intro loc _
      exact List.countP_cons _ _ _
    rw [List.countP_cons, hcons, sum_map_add, hd]
    congr 1
    cases hno : r.temperature.isSome with
    | false =>
      rw [List.sum_eq_zero]
      · rfl
      · intro x hx
        rcases List.mem_map.1 hx with ⟨k, _, rfl⟩
        simp
    | true =>
      obtain ⟨l, hrl, hlK⟩ := h r (List.mem_cons_self r d) hno
      have hmap :
          K.map (fun loc =>
              if (decide (r.location = some loc) && true) = true
                then (1 : ℕ) else 0)
            = K.map (fun k => if k = l then (1 : ℕ) else 0) := by
        apply List.map_congr_left
        intro k _
        rw [hrl]
        by_cases hk : k = l
        · subst hk; simp
        · simp [Option.some.injEq, Ne.symm hk, hk]
      rw [hmap, sum_indicator_nodup K l hK hlK]
      rfl

theorem countP_isNone_add_isSome :
    ∀ d : Dataset,
      d.countP (fun r => r.temperature.isNone)
        + d.countP (fun r => r.temperature.isSome) = d.length
  | [] => rfl
  | r :: d => by
    rw [List.countP_cons, List.countP_cons, List.length_cons]
    have ih := countP_isNone_add_isSome d
    cases ht : r.temperature <;> simp [ht] <;> omega

/-- C7: when every row has a location, the per-location non-missing counts of
`get_temperature_by_location` sum to the dataset length minus
`missing_values`. -/
theorem claim_C7 (d : Dataset) (h : ∀ r ∈ d, r.location ≠ none) :
    ((get_temperature_by_location d).map (fun p => p.2.count)).sum
      = d.length - missing_values d := by
  have hK : (locKeys d).Nodup :=
    ((List.perm_insertionSort strLe _).nodup_iff).2 (List.nodup_dedup _)
  have hcover : ∀ r ∈ d, r.temperature.isSome = true →
      ∃ loc, r.location = some loc ∧ loc ∈ locKeys d := by
    intro r hr _
    cases hl : r.location with
    | none => exact absurd hl (h r hr)
    | some loc =>
      refine ⟨loc, rfl, ?_⟩
      rw [locKeys, List.mem_insertionSort, List.mem_dedup, List.mem_filterMap]
      exact ⟨r, hr, hl⟩
  have hmap :
      (get_temperature_by_location d).map (fun p => p.2.count)
        = (locKeys d).map (fun loc =>
            d.countP (fun r =>
              decide (r.location = some loc) && r.temperature.isSome)) := by
    rw [get_temperature_by_location, List.map_map]
    apply List.map_congr_left
    intro loc _
    exact length_nonMissing loc d
  rw [hmap, sum_counts hK d hcover]
  have hsplit := countP_isNone_add_isSome d
  have hmv : missing_values d = d.countP (fun r => r.temperature.isNone) := rfl
  omega

/-- Witness for C7: on `exM` (three rows, one missing temperature, all rows
located) the counts sum to `3 - 1`. -/
theorem claim_C7_witness :
    ((get_temperature_by_location exM).map (fun p => p.2.count)).sum
      = exM.length - missing_values exM :=
  claim_C7 exM (by decide)

/-! ## Claim C8 -/

/-- C8: on a dataset whose temperatures are all missing (including the empty
dataset), `detect_anomalies` takes the early return: it produces the empty
result and prints exactly the no-data message, at every threshold (totality
of the definitions models the absence of an exception; the per-location
statistics are never computed on this path). -/
theorem claim_C8 (d : Dataset) (t : ℚ) (h : ∀ r ∈ d, r.temperature = none) :
    detect_anomalies d t = [] ∧
      detect_anomalies_msgs d t
        = ["No temperature data available for anomaly detection."] := by
  have hall : d.all (fun r => r.temperature.isNone) = true := by
    rw [List.all_eq_true]
    intro r hr
    simp [h r hr]
  constructor
  · unfold detect_anomalies
    rw [if_pos hall]
  · unfold detect_anomalies_msgs
    rw [if_pos hall]

/-- Witness for C8: the empty dataset at threshold 0. -/
theorem claim_C8_witness :
    detect_anomalies [] 0 = [] ∧
      detect_anomalies_msgs [] 0
        = ["No temperature data available for anomaly detection."] :=
  claim_C8 [] 0 (by decide)

/-! ## Claim C9 -/

/-- Counterexample to C9 as stated: on the empty dataset (zero non-missing
readings) and the default output path, `plot_temperature_trends` still
creates the output directory — `os.makedirs` runs before the validity
check, so the directory is not created "only when at least one valid row
remains". -/
theorem claim_C9_counterexample :
    Effect.mkdir "../reports" ∈
        effectsOf (plot_temperature_trends [] "../reports/temperature_trends.png") ∧
      (([] : Dataset).filter (fun r => !r.temperature.isNone)).length = 0 :=
  ⟨by decide, rfl⟩

/-- C9 as amended: on a dataset with zero non-missing readings and an output
path with a nonempty directory component, `plot_temperature_trends` logs the
no-data message and returns without saving a figure and without raising;
the output directory is created unconditionally, before the validity check,
in this case as well. -/
theorem claim_C9 (d : Dataset) (path : String) (hdir : dirname path ≠ "")
    (hvalid : (d.filter (fun r => !r.temperature.isNone)).length = 0) :
    plot_temperature_trends d path
      = .ok [.mkdir (dirname path),
             .log "No valid temperature data available for plotting."] := by
  unfold plot_temperature_trends makedirs
  rw [if_neg hdir, List.length_eq_zero.1 hvalid]
  rfl

/-- Witness for C9: the empty dataset with the default output path. -/
theorem claim_C9_witness :
    plot_temperature_trends [] "../reports/temperature_trends.png"
      = .ok [.mkdir "../reports",
             .log "No valid temperature data available for plotting."] :=
  claim_C9 [] "../reports/temperature_trends.png" (by decide) rfl

/-! ## Claim C10 -/

theorem dirname_eq_empty_of_no_slash {p : String}
    (h : ∀ c ∈ p.data, c ≠ '/') : dirname p = "" := by
  have hdrop : p.toList.reverse.dropWhile (fun c => decide (c ≠ '/')) = [] := by
    rw [List.dropWhile_eq_nil_iff]
    intro c hc
    have hcp : c ∈ p.data := by simpa [String.toList] using List.mem_reverse.1 hc
    simp [h c hcp]
  simp only [dirname]
  rw [hdrop]
  rfl

/-- C10: for an output path with no directory component, both
`plot_temperature_trends` and `save_report` raise (`os.makedirs('')` fails
with `FileNotFoundError`) before any output effect, for every dataset. -/
theorem claim_C10 (d : Dataset) (path : String)
    (h : ∀ c ∈ path.data, c ≠ '/') :
    plot_temperature_trends d path
        = .error "FileNotFoundError: [Errno 2] No such file or directory" ∧
      save_report d path
        = .error "FileNotFoundError: [Errno 2] No such file or directory" := by
  have hd := dirname_eq_empty_of_no_slash h
  constructor
  · unfold plot_temperature_trends makedirs
    rw [hd]
    rfl
  · unfold save_report makedirs
    rw [hd]
    rfl

/-- Witness for C10: the slashless path `report.txt` with a non-empty
dataset. -/
theorem claim_C10_witness :
    plot_temperature_trends exA "report.txt"
        = .error "FileNotFoundError: [Errno 2] No such file or directory" ∧
      save_report exA "report.txt"
        = .error "FileNotFoundError: [Errno 2] No such file or directory" :=
  claim_C10 exA "report.txt" (by decide)

end TemperatureAnalyzer
